import Mathlib

/-!
Verification of the CSV decoding/validation engine of the just_gtfs library
(`include/just_gtfs/just_gtfs.h`), shallowly embedded in Lean 4.

Modelling conventions:
* C++ strings are Lean `String`s viewed as their `List Char` data; indexing and
  `substr` are explicit list operations.
* C++ exceptions (`std::out_of_range`, `std::invalid_argument`, the library's
  own `InvalidFieldFormat`) become an explicit `CppException` error type and
  fallible code returns `Except CppException`.
* `double` values are modelled as exact rationals; the embedded `stod` parses
  plain decimal literals (optional sign, integer and fraction digits).  The
  source only parses coordinates and compares them against constant bounds, so
  no floating-point arithmetic has to be modelled; IEEE rounding of the parsed
  literal (below half an ulp) and exponent/hex/inf spellings are not modelled.
* Machine integers stay `Nat`/`Int` with explicit range behaviour where the
  source relies on it (`std::stoi` range check, casts to `uint16_t`/`size_t`).
* `std::map<std::string, std::string>` becomes an association list with
  overwrite-on-insert; only lookup, insert and emptiness are used by the code.
-/

namespace JustGtfs

/-- Mirrors `gtfs::ResultCode` from the source. -/
inductive ResultCode where
  | OK
  | END_OF_FILE
  | ERROR_INVALID_GTFS_PATH
  | ERROR_FILE_ABSENT
  | ERROR_REQUIRED_FIELD_ABSENT
  | ERROR_INVALID_FIELD_FORMAT
deriving DecidableEq, Repr

/-- Mirrors `gtfs::Result` (a result code plus a diagnostic message). -/
structure Result where
  code : ResultCode := ResultCode.OK
  message : String := ""
deriving DecidableEq, Repr

/-- The C++ exceptions the engine throws and catches: `std::out_of_range`
(from `std::map::at`, `std::stoi`/`std::stod` overflow and
`check_coordinates`), `std::invalid_argument` (from `std::stoi`/`std::stod`
on non-numeric text and the explicit negative-distance throw), and the
library's own `InvalidFieldFormat`.  Each carries its `what()` text; for
standard-library exceptions that text is implementation defined and the
modelled strings are placeholders never relied upon by any theorem. -/
inductive CppException where
  | outOfRange (msg : String)
  | invalidArgument (msg : String)
  | invalidFieldFormat (msg : String)
deriving DecidableEq, Repr

/-- Is `e` the library's `InvalidFieldFormat` fault? -/
def CppException.isInvalidFieldFormat : CppException → Bool
  | .invalidFieldFormat _ => true
  | _ => false

/-- The C locale space set used by `std::stoi`/`std::stod` when skipping
leading whitespace: space, \t, \n, vertical tab, form feed, \r. -/
def cppIsSpace (c : Char) : Bool :=
  c.toNat = 32 || (9 ≤ c.toNat && c.toNat ≤ 13)

/-- Decimal digit test by code point, as `std::stoi`/`std::stod` classify. -/
def cppIsDigit (c : Char) : Bool :=
  48 ≤ c.toNat && c.toNat ≤ 57

/-- Value of a left-to-right decimal digit string, accumulator form. -/
def digitsValAux (a : Nat) : List Char → Nat
  | [] => a
  | c :: r => digitsValAux (10 * a + (c.toNat - 48)) r

/-- Value of a decimal digit string. -/
def digitsVal (l : List Char) : Nat := digitsValAux 0 l

/-- Decimal digits of `n`, most significant first, mirroring
`std::to_string` on non-negative values.  Fuel-structured so that the
definition reduces by evaluation; `natToString` supplies enough fuel. -/
def natDigitsAux : Nat → Nat → List Char
  | 0, _ => []
  | f + 1, n =>
    if n < 10 then [Char.ofNat (48 + n)]
    else natDigitsAux f (n / 10) ++ [Char.ofNat (48 + n % 10)]

/-- `std::to_string` on a `Nat`. -/
def natToString (n : Nat) : String := ⟨natDigitsAux (n + 1) n⟩

/-- `std::stoi`: skip C-locale whitespace, read an optional sign and a
non-empty run of decimal digits, and fail with `std::out_of_range` outside
`int`'s range `[-2147483648, 2147483647]` or with `std::invalid_argument`
when no digits are found. -/
def stoi (s : String) : Except CppException Int :=
  let l := s.data.dropWhile cppIsSpace
  let sign : Int := if l.head? = some '-' then -1 else 1
  let l2 := if l.head? = some '-' || l.head? = some '+' then l.tail else l
  let digs := l2.takeWhile cppIsDigit
  if digs.isEmpty then .error (.invalidArgument "stoi")
  else
    let v : Int := sign * (digitsVal digs : Nat)
    if v < -2147483648 || 2147483647 < v then .error (.outOfRange "stoi")
    else .ok v

/-- `std::stod` on plain decimal literals: skip whitespace, read an optional
sign, integer digits and an optional fraction after a decimal point; at
least one digit must appear.  The parsed value is kept as an exact
rational (see the module comment). -/
def stod (s : String) : Except CppException ℚ :=
  let l := s.data.dropWhile cppIsSpace
  let sign : ℚ := if l.head? = some '-' then -1 else 1
  let l2 := if l.head? = some '-' || l.head? = some '+' then l.tail else l
  let ip := l2.takeWhile cppIsDigit
  let rest := l2.dropWhile cppIsDigit
  let fp := if rest.head? = some '.' then rest.tail.takeWhile cppIsDigit else []
  if ip.isEmpty && fp.isEmpty then .error (.invalidArgument "stod")
  else .ok (sign * ((digitsVal ip : ℚ) + (digitsVal fp : ℚ) / (10 : ℚ) ^ fp.length))

/-- `static_cast<uint16_t>` of an `int` value (reduction modulo 2^16). -/
def castUInt16 (v : Int) : Nat := (v % 65536).toNat

/-- `static_cast<size_t>` of an `int` value (reduction modulo 2^64). -/
def castSizeT (v : Int) : Nat := (v % 18446744073709551616).toNat

/-- `gtfs::trim_spaces`: drop trailing space characters of a token. -/
def trimSpaces (s : String) : String :=
  ⟨(s.data.reverse.dropWhile (fun c => c = ' ')).reverse⟩

/-- One step of `CsvParser::split_record`'s character loop.  The C++ loop
tracks `token_start_index`; its only use is the test `token_start_index == i`,
which holds exactly when every character since the last delimiter (or the
start) was a skipped leading space — carried here as the flag `atStart`.
`inQ` is `is_inside_quotes`, `token` the current field, `acc` the finished
fields. -/
def splitLoop : List Char → Bool → Bool → String → List String → List String
  | [], _, _, token, acc => acc ++ [trimSpaces token]
  | c :: rest, inQ, atStart, token, acc =>
    if c = '"' then splitLoop rest (!inQ) false token acc
    else if c = ' ' then
      if atStart then splitLoop rest inQ true token acc
      else splitLoop rest inQ false (token.push c) acc
    else if c = ',' then
      if inQ then splitLoop rest inQ false (token.push c) acc
      else splitLoop rest inQ true "" (acc ++ [trimSpaces token])
    else if c = '\r' || c = '\t' then splitLoop rest inQ false token acc
    else splitLoop rest inQ false (token.push c) acc

/-- `CsvParser::split_record`: tokenize one CSV line.  On a header line a
leading UTF-8 byte-order mark (bytes 0xEF 0xBB 0xBF) is skipped first. -/
def splitRecord (record : String) (isHeader : Bool) : List String :=
  let data :=
    if isHeader && record.data.length > 2
        && record.data.take 3 = [Char.ofNat 0xEF, Char.ofNat 0xBB, Char.ofNat 0xBF]
    then record.data.drop 3
    else record.data
  splitLoop data false true "" []

/-- A `ParsedCsvRow` (`std::map<std::string, std::string>`), as an
association list.  The code only looks keys up, assigns (insert or
overwrite) and tests emptiness, none of which depends on `std::map`'s key
ordering. -/
abbrev RowMap := List (String × String)

/-- Key lookup (first binding; `insertA` keeps keys unique). -/
def lookupA (row : RowMap) (key : String) : Option String :=
  match row with
  | [] => none
  | (k, v) :: rest => if k = key then some v else lookupA rest key

/-- `obj[key] = value` on a `std::map`: overwrite the existing binding or
append a new one. -/
def insertA (row : RowMap) (key value : String) : RowMap :=
  match row with
  | [] => [(key, value)]
  | (k, v) :: rest => if k = key then (k, value) :: rest else (k, v) :: insertA rest key value

/-- `row.at(key)`: throws `std::out_of_range` when the key is absent (the
message stands in for the standard library's implementation-defined text). -/
def mapAt (row : RowMap) (key : String) : Except CppException String :=
  match lookupA row key with
  | some v => .ok v
  | none => .error (.outOfRange ("map at: " ++ key))

/-- `gtfs::get_value_or_default`. -/
def getValueOrDefault (row : RowMap) (key : String) (defaultValue : String := "") : String :=
  match lookupA row key with
  | some v => v
  | none => defaultValue

/-- `gtfs::set_field` for an integer-backed field (enums and integer
fields; `static_cast<T>` of the parsed `int` is the identity on the
underlying value, which is what the model stores).  Returns the new field
value given the current one. -/
def setFieldInt (field : Int) (row : RowMap) (key : String) (isOptional : Bool := true) :
    Except CppException Int := do
  let keyStr := getValueOrDefault row key
  if keyStr ≠ "" || isOptional = false then stoi keyStr
  else pure field

/-- `gtfs::set_field` instantiated at a `size_t` field (`static_cast<size_t>`
wraps the parsed `int` modulo 2^64). -/
def setFieldSizeT (field : Nat) (row : RowMap) (key : String) (isOptional : Bool := true) :
    Except CppException Nat := do
  let keyStr := getValueOrDefault row key
  if keyStr ≠ "" || isOptional = false then
    let v ← stoi keyStr
    pure (castSizeT v)
  else pure field

/-- `gtfs::set_fractional`: parse a `double` field when present (or when
required); the returned flag reports whether the field was assigned. -/
def setFractional (field : ℚ) (row : RowMap) (key : String) (isOptional : Bool := true) :
    Except CppException (ℚ × Bool) := do
  let keyStr := getValueOrDefault row key
  if keyStr ≠ "" || isOptional = false then
    let v ← stod keyStr
    pure (v, true)
  else pure (field, false)

/-- `gtfs::Time`: hour/minute/second components (`uint16_t`), elapsed
seconds and canonical text, plus the presence flag. -/
structure Time where
  time_is_provided : Bool := false
  raw_time : String := ""
  total_seconds : Nat := 0
  hh : Nat := 0
  mm : Nat := 0
  ss : Nat := 0
deriving DecidableEq, Repr

/-- `gtfs::append_leading_zero`: left-pad to two characters, rejecting
strings longer than two characters unless `check` is off. -/
def appendLeadingZero (s : String) (check : Bool := true) : Except CppException String :=
  if check && s.length > 2 then
    .error (.invalidFieldFormat ("The string for appending zero is too long: " ++ s))
  else .ok (if s.length = 2 then s else "0" ++ s)

/-- `Time::set_raw_time`: render `hh:mm:ss` with minutes and seconds
zero-padded to two digits (hours padded but never length-checked). -/
def setRawTime (hh mm ss : Nat) : Except CppException String := do
  let hhStr ← appendLeadingZero (natToString hh) false
  let mmStr ← appendLeadingZero (natToString mm)
  let ssStr ← appendLeadingZero (natToString ss)
  pure (hhStr ++ ":" ++ mmStr ++ ":" ++ ssStr)

/-- `s.substr(pos, count)` on the character list. -/
def substrCpp (s : String) (pos count : Nat) : String := ⟨(s.data.drop pos).take count⟩

/-- `s.substr(pos)` (to the end of the string). -/
def substrFrom (s : String) (pos : Nat) : String := ⟨s.data.drop pos⟩

/-- `s[i]` (never out of range at its use sites; a null placeholder keeps
the model total). -/
def charAt (s : String) (i : Nat) : Char := s.data.getD i (Char.ofNat 0)

/-- `Time::Time(const std::string &)`: empty text gives a not-provided
value; otherwise the length must be 7 or 8 with a colon at `len-3` or
`len-6`, the three components are read with `std::stoi` and cast to
`uint16_t`, minutes and seconds above 60 are rejected, and total seconds
and the presence flag are set. -/
def timeFromString (rawTimeStr : String) : Except CppException Time := do
  if rawTimeStr = "" then pure { raw_time := rawTimeStr }
  else
    let len := rawTimeStr.length
    if ¬(len = 7 || len = 8) ||
        (charAt rawTimeStr (len - 3) ≠ ':' && charAt rawTimeStr (len - 6) ≠ ':') then
      .error (.invalidFieldFormat ("Time is not in [H]H:MM:SS format: " ++ rawTimeStr))
    else
      let hh := castUInt16 (← stoi (substrCpp rawTimeStr 0 (len - 6)))
      let mm := castUInt16 (← stoi (substrCpp rawTimeStr (len - 5) 2))
      let ss := castUInt16 (← stoi (substrFrom rawTimeStr (len - 2)))
      if mm > 60 || ss > 60 then
        .error (.invalidFieldFormat ("Time minutes/seconds wrong value: " ++
          natToString mm ++ " minutes, " ++ natToString ss ++ " seconds"))
      else
        pure { time_is_provided := true, raw_time := rawTimeStr,
               total_seconds := hh * 3600 + mm * 60 + ss, hh := hh, mm := mm, ss := ss }

/-- `Time::limit_hours_to_24max`: below 24 hours report no change;
otherwise reduce hours modulo 24 and recompute total seconds and the
canonical text. -/
def limitHoursTo24max (t : Time) : Except CppException (Bool × Time) := do
  if t.hh < 24 then pure (false, t)
  else
    let hh2 := t.hh % 24
    let raw ← setRawTime hh2 t.mm t.ss
    pure (true, { t with hh := hh2, total_seconds := hh2 * 3600 + t.mm * 60 + t.ss,
                         raw_time := raw })

/-- `gtfs::Date`: year/month/day components, canonical text and the
presence flag. -/
structure Date where
  raw_date : String := ""
  yyyy : Nat := 0
  mm : Nat := 0
  dd : Nat := 0
  date_is_provided : Bool := false
deriving DecidableEq, Repr

/-- `Date::check_valid`: range checks on year/month/day, the February
leap-year rule (leap iff divisible by 4 and, for centuries, by 400) and
the 30-day months. -/
def checkValidDate (yyyy mm dd : Nat) : Except CppException Unit := do
  if yyyy < 1000 || yyyy > 9999 || mm < 1 || mm > 12 || dd < 1 || dd > 31 then
    .error (.invalidFieldFormat ("Date check failed: out of range. " ++ natToString yyyy ++
      " year, " ++ natToString mm ++ " month, " ++ natToString dd ++ " day"))
  else do
    if mm = 2 && dd > 28 then
      if yyyy % 4 ≠ 0 || (yyyy % 100 = 0 && yyyy % 400 ≠ 0) then
        .error (.invalidFieldFormat ("Invalid days count in February of non-leap year: " ++
          natToString dd ++ " year" ++ natToString yyyy))
      else if dd > 29 then
        .error (.invalidFieldFormat ("Invalid days count in February of leap year: " ++
          natToString dd ++ " year" ++ natToString yyyy))
      else pure ()
    else pure ()
    if dd > 30 && (mm = 4 || mm = 6 || mm = 9 || mm = 11) then
      .error (.invalidFieldFormat ("Invalid days count in month: " ++ natToString dd ++
        " days in " ++ natToString mm))
    else pure ()

/-- `Date::Date(const std::string &)`: empty text gives a not-provided
value; otherwise the length must be exactly 8, the components are read from
fixed offsets with `std::stoi` and cast to `uint16_t`, and `check_valid`
runs before the presence flag is set. -/
def dateFromString (rawDateStr : String) : Except CppException Date := do
  if rawDateStr = "" then pure { raw_date := rawDateStr }
  else if rawDateStr.length ≠ 8 then
    .error (.invalidFieldFormat ("Date is not in YYYY:MM::DD format: " ++ rawDateStr))
  else
    let yyyy := castUInt16 (← stoi (substrCpp rawDateStr 0 4))
    let mm := castUInt16 (← stoi (substrCpp rawDateStr 4 2))
    let dd := castUInt16 (← stoi (substrCpp rawDateStr 6 2))
    checkValidDate yyyy mm dd
    pure { raw_date := rawDateStr, yyyy := yyyy, mm := mm, dd := dd, date_is_provided := true }

/-- `gtfs::Agency` (all fields are strings in the source). -/
structure Agency where
  agency_id : String := ""
  agency_name : String := ""
  agency_url : String := ""
  agency_timezone : String := ""
  agency_lang : String := ""
  agency_phone : String := ""
  agency_fare_url : String := ""
  agency_email : String := ""
deriving DecidableEq, Repr

/-- `gtfs::Route`; enum-backed `route_type` is stored as its underlying
integer value (`RouteType::Tram = 0` is the default), `route_sort_order`
is a `size_t`. -/
structure Route where
  route_id : String := ""
  route_type : Int := 0
  agency_id : String := ""
  route_short_name : String := ""
  route_long_name : String := ""
  route_desc : String := ""
  route_url : String := ""
  route_color : String := ""
  route_text_color : String := ""
  route_sort_order : Nat := 0
deriving DecidableEq, Repr

/-- `gtfs::StopTime`; the enum fields keep their underlying integer values
(`StopTimeBoarding::RegularlyScheduled = 0`, `StopTimePoint::Exact = 1`). -/
structure StopTime where
  trip_id : String := ""
  stop_id : String := ""
  stop_sequence : Nat := 0
  arrival_time : Time := {}
  departure_time : Time := {}
  stop_headsign : String := ""
  pickup_type : Int := 0
  drop_off_type : Int := 0
  shape_dist_traveled : ℚ := 0
  timepoint : Int := 1
deriving DecidableEq, Repr

/-- `gtfs::ShapePoint`. -/
structure ShapePoint where
  shape_id : String := ""
  shape_pt_lat : ℚ := 0
  shape_pt_lon : ℚ := 0
  shape_pt_sequence : Nat := 0
  shape_dist_traveled : ℚ := 0
deriving DecidableEq, Repr

/-- The `gtfs::Feed` store, restricted to the tables the verified
operations touch (`agencies`, `routes`, `stop_times`, `shapes`); the
remaining tables are independent `std::vector` members of the same shape
and are not involved in any claim. -/
structure Feed where
  agencies : List Agency := []
  routes : List Route := []
  stop_times : List StopTime := []
  shapes : List ShapePoint := []
deriving DecidableEq, Repr

/-- `gtfs::check_coordinates`: latitude outside [-90, 90] or longitude
outside [-180, 180] throws `std::out_of_range`. -/
def checkCoordinates (latitude longitude : ℚ) : Except CppException Unit :=
  if latitude < -90 || latitude > 90 then .error (.outOfRange "Latitude")
  else if longitude < -180 || longitude > 180 then .error (.outOfRange "Longitude")
  else .ok ()

/-- Translate a caught exception into the mapper's `Result`, as the
`catch` clauses of the `Feed::add_*` members do: `std::out_of_range`
becomes `ERROR_REQUIRED_FIELD_ABSENT`, `std::invalid_argument` and
`InvalidFieldFormat` become `ERROR_INVALID_FIELD_FORMAT`.  (`add_route`
and `add_shape` have no `InvalidFieldFormat` handler, but neither can
throw it: they construct no `Time`/`Date` values.) -/
def resultOfException : CppException → Result
  | .outOfRange msg => { code := .ERROR_REQUIRED_FIELD_ABSENT, message := msg }
  | .invalidArgument msg => { code := .ERROR_INVALID_FIELD_FORMAT, message := msg }
  | .invalidFieldFormat msg => { code := .ERROR_INVALID_FIELD_FORMAT, message := msg }

/-- The cross-field diagnostic of `Feed::add_route` (the source text quotes
the two field names). -/
def routeNameMissingMsg : String :=
  "route_short_name or route_long_name must be specified"

/-- The `try` block of `Feed::add_route`: required `route_id` and
`route_type`, optional `route_sort_order`. -/
def addRouteTry (row : RowMap) : Except CppException (String × Int × Nat) := do
  let routeId ← mapAt row "route_id"
  let routeType ← setFieldInt 0 row "route_type" false
  let sortOrder ← setFieldSizeT 0 row "route_sort_order"
  pure (routeId, routeType, sortOrder)

/-- `Feed::add_route`: on any caught exception report it and append
nothing; otherwise read the conditionally required names, fail with
`ERROR_REQUIRED_FIELD_ABSENT` when both are empty, and append the route. -/
def addRoute (feed : Feed) (row : RowMap) : Result × Feed :=
  match addRouteTry row with
  | .error e => (resultOfException e, feed)
  | .ok (routeId, routeType, sortOrder) =>
    let agencyId := getValueOrDefault row "agency_id"
    let shortName := getValueOrDefault row "route_short_name"
    let longName := getValueOrDefault row "route_long_name"
    if shortName = "" && longName = "" then
      ({ code := .ERROR_REQUIRED_FIELD_ABSENT, message := routeNameMissingMsg }, feed)
    else
      let route : Route :=
        { route_id := routeId, route_type := routeType, route_sort_order := sortOrder,
          agency_id := agencyId, route_short_name := shortName, route_long_name := longName,
          route_color := getValueOrDefault row "route_color",
          route_text_color := getValueOrDefault row "route_text_color",
          route_desc := getValueOrDefault row "route_desc",
          route_url := getValueOrDefault row "route_url" }
      ({ code := .OK }, { feed with routes := feed.routes ++ [route] })

/-- The `try` block of `Feed::add_shape`: required `shape_id`, sequence
and coordinates (checked by `check_coordinates`), optional non-negative
`shape_dist_traveled`. -/
def addShapeTry (row : RowMap) : Except CppException ShapePoint := do
  let shapeId ← mapAt row "shape_id"
  let seq ← stoi (← mapAt row "shape_pt_sequence")
  let lon ← stod (← mapAt row "shape_pt_lon")
  let lat ← stod (← mapAt row "shape_pt_lat")
  checkCoordinates lat lon
  let (dist, _) ← setFractional 0 row "shape_dist_traveled"
  if dist < 0 then .error (.invalidArgument "Invalid shape_dist_traveled")
  else
    pure { shape_id := shapeId, shape_pt_sequence := castSizeT seq,
           shape_pt_lon := lon, shape_pt_lat := lat, shape_dist_traveled := dist }

/-- `Feed::add_shape`: translate caught exceptions, append on success. -/
def addShape (feed : Feed) (row : RowMap) : Result × Feed :=
  match addShapeTry row with
  | .error e => (resultOfException e, feed)
  | .ok point => ({ code := .OK }, { feed with shapes := feed.shapes ++ [point] })

/-- The assignment loop of `CsvParser::read_row`
(`obj[field_sequence[i]] = fields_values[i]` for `i` below the header's
field count): walks the header keys and the row's values in lockstep;
running out of values means the vector access `fields_values[i]` is past
the end — undefined behaviour, modelled as `none`. -/
def assignLoop (keys values : List String) (obj : RowMap) : Option RowMap :=
  match keys, values with
  | [], _ => some obj
  | _ :: _, [] => none
  | key :: keys, v :: vs => assignLoop keys vs (insertA obj key v)

/-- The non-end-of-file body of `CsvParser::read_row`, given the stored
header `fields` and the current `obj` contents: a bare carriage-return row
empties `obj`; otherwise the row is tokenized, `obj` is emptied when the
field count differs from the header's, and the assignment loop runs
(in the source it runs in either case). -/
def readRowUpdate (fields : List String) (obj : RowMap) (row : String) : Option RowMap :=
  if row = "\r" then some []
  else
    let fieldsValues := splitRecord row false
    let obj0 := if fieldsValues.length ≠ fields.length then [] else obj
    assignLoop fields fieldsValues obj0

/-- The row loop of `Feed::parse_csv` after a successful `read_header`,
over the remaining lines of the stream: skip rows that leave the mapping
empty, hand the rest to the entity mapper, stop at the first mapper
failure, and report `OK` with the `Parsed` message at end of file.  `none`
records that the undefined out-of-bounds access in `read_row` was
reached. -/
def parseRows (addEntity : Feed → RowMap → Result × Feed) (filename : String)
    (fields : List String) : List String → RowMap → Feed → Option (Result × Feed)
  | [], _, feed => some ({ code := .OK, message := "Parsed " ++ filename }, feed)
  | row :: rest, rec, feed =>
    match readRowUpdate fields rec row with
    | none => none
    | some rec2 =>
      if rec2 = [] then parseRows addEntity filename fields rest rec2 feed
      else
        match addEntity feed rec2 with
        | (res, feed2) =>
          if res.code = .OK then parseRows addEntity filename fields rest rec2 feed2
          else some (res, feed2)

/-- The state (`record` contents and feed) left by the row loop of
`Feed::parse_csv` after consuming lines that all succeed; `none` when a
line fails, is skipped by failure, or reaches the out-of-bounds access. -/
def runRowsOk (addEntity : Feed → RowMap → Result × Feed)
    (fields : List String) : List String → RowMap → Feed → Option (RowMap × Feed)
  | [], rec, feed => some (rec, feed)
  | row :: rest, rec, feed =>
    match readRowUpdate fields rec row with
    | none => none
    | some rec2 =>
      if rec2 = [] then runRowsOk addEntity fields rest rec2 feed
      else
        match addEntity feed rec2 with
        | (res, feed2) =>
          if res.code = .OK then runRowsOk addEntity fields rest rec2 feed2
          else none

/-- `Feed::get_agency`: with an empty id and exactly one stored agency
return that agency; otherwise linear-scan for the first id match. -/
def getAgency (feed : Feed) (agencyId : String) : Option Agency :=
  if agencyId = "" && feed.agencies.length = 1 then feed.agencies.head?
  else feed.agencies.find? (fun agency => agency.agency_id = agencyId)

/-- The collection loop of `Feed::get_stop_times_for_trip` (and the whole
function when `sort_by_sequence` is off): the stored stop times whose
`trip_id` matches, in stored order. -/
def getStopTimesForTripNoSort (feed : Feed) (tripId : String) : List StopTime :=
  feed.stop_times.filter (fun stopTime => stopTime.trip_id = tripId)

/-- The comparator `Feed::get_stop_times_for_trip` passes to `std::sort`. -/
def stopTimeComp (t1 t2 : StopTime) : Bool :=
  t1.stop_sequence < t2.stop_sequence

/-- The contract of `std::sort` on the collected matches (its result for
`sort_by_sequence = true`): some permutation of the matching records that
is sorted for the comparator.  The C++ standard leaves the order of
equivalent elements unspecified, so the embedding is this relation rather
than a function. -/
def SortedTripResult (feed : Feed) (tripId : String) (out : List StopTime) : Prop :=
  out.Perm (getStopTimesForTripNoSort feed tripId) ∧
  out.Pairwise (fun a b => stopTimeComp b a = false)

/-- Insertion into a list sorted by `stop_sequence` (used only to witness
that the `std::sort` contract is satisfiable). -/
def insertBySeq (x : StopTime) : List StopTime → List StopTime
  | [] => [x]
  | y :: ys => if x.stop_sequence ≤ y.stop_sequence then x :: y :: ys else y :: insertBySeq x ys

/-- Insertion sort by `stop_sequence` (a witness for the `std::sort`
contract). -/
def sortBySeq : List StopTime → List StopTime
  | [] => []
  | x :: xs => insertBySeq x (sortBySeq xs)

/-- `Except` success test. -/
def exceptIsOk {α : Type} : Except CppException α → Bool
  | .ok _ => true
  | .error _ => false

/-! ### Helper lemmas -/

theorem cppIsDigit_iff {c : Char} : cppIsDigit c = true ↔ 48 ≤ c.toNat ∧ c.toNat ≤ 57 := by
  simp [cppIsDigit]

theorem not_space_of_digit {c : Char} (h : cppIsDigit c = true) : cppIsSpace c = false := by
  rw [cppIsDigit_iff] at h
  simp only [cppIsSpace]
  simp only [Bool.or_eq_false_iff, Bool.and_eq_false_iff, decide_eq_false_iff_not]
  omega

theorem digit_ne_minus {c : Char} (h : cppIsDigit c = true) : c ≠ '-' :=
  fun he => absurd (he ▸ h) (by decide)

theorem digit_ne_plus {c : Char} (h : cppIsDigit c = true) : c ≠ '+' :=
  fun he => absurd (he ▸ h) (by decide)

theorem takeWhile_eq_self_of_all {p : Char → Bool} :
    ∀ l : List Char, (∀ c ∈ l, p c = true) → l.takeWhile p = l := by
  intro l
  induction l with
  | nil => intro _; rfl
  | cons c r ih =>
    intro h
    rw [List.takeWhile_cons, h c (List.mem_cons_self c r)]
    simp [ih fun x hx => h x (List.mem_cons_of_mem c hx)]

theorem digitsValAux_lt :
    ∀ (l : List Char), (∀ c ∈ l, cppIsDigit c = true) →
      ∀ (a : Nat), digitsValAux a l < (a + 1) * 10 ^ l.length := by
  intro l
  induction l with
  | nil =>
    intro _ a
    show a < (a + 1) * 10 ^ 0
    omega
  | cons c r ih =>
    intro hdig a
    have hc := cppIsDigit_iff.mp (hdig c (List.mem_cons_self c r))
    have h2 : 10 * a + (c.toNat - 48) + 1 ≤ (a + 1) * 10 := by omega
    have ihr := ih (fun x hx => hdig x (List.mem_cons_of_mem c hx)) (10 * a + (c.toNat - 48))
    have step : digitsValAux a (c :: r) = digitsValAux (10 * a + (c.toNat - 48)) r := rfl
    rw [step, List.length_cons, pow_succ]
    calc digitsValAux (10 * a + (c.toNat - 48)) r
        < (10 * a + (c.toNat - 48) + 1) * 10 ^ r.length := ihr
      _ ≤ ((a + 1) * 10) * 10 ^ r.length := Nat.mul_le_mul_right _ h2
      _ = (a + 1) * (10 ^ r.length * 10) := by ring

theorem digitsVal_lt (l : List Char) (hdig : ∀ c ∈ l, cppIsDigit c = true) :
    digitsVal l < 10 ^ l.length := by
  have := digitsValAux_lt l hdig 0
  rw [digitsVal]
  omega

theorem stoi_digits (l : List Char) (hne : l ≠ [])
    (hdig : ∀ c ∈ l, cppIsDigit c = true) (hb : digitsVal l ≤ 2147483647) :
    stoi ⟨l⟩ = .ok (digitsVal l) := by
  match l, hne with
  | c :: r, _ =>
    have hc := hdig c (List.mem_cons_self c r)
    have hdrop : (c :: r).dropWhile cppIsSpace = c :: r := by
      rw [List.dropWhile_cons, not_space_of_digit hc]
      simp
    have htake : (c :: r).takeWhile cppIsDigit = c :: r := takeWhile_eq_self_of_all _ hdig
    have hcond : ¬((digitsVal (c :: r) : Int) < -2147483648 ∨
        (2147483647 : Int) < (digitsVal (c :: r) : Nat)) := by
      push_neg
      constructor <;> omega
    simp only [stoi, String.data]
    rw [hdrop]
    simp [digit_ne_minus hc, digit_ne_plus hc, htake, hcond, hc]
    exact ⟨by omega, hb⟩

theorem castUInt16_coe (n : Nat) (h : n < 65536) : castUInt16 (n : Int) = n := by
  unfold castUInt16
  rw [Int.emod_eq_of_lt (Int.ofNat_nonneg n) (by exact_mod_cast h)]
  simp

/-! ### C9: quoted-field tokenization -/

/-- C9: tokenizing `27681 ,,"Sisters, OR",,"44.29124",1` with
`split_record` yields exactly 6 fields, the first equal to `27681`
(trailing space trimmed outside quotes) and the third equal to
`Sisters, OR` (the quoted comma kept as content, the quote characters
absent from the output). -/
theorem claim_C9_quoted_tokenization :
    splitRecord "27681 ,,\"Sisters, OR\",,\"44.29124\",1" false =
      ["27681", "", "Sisters, OR", "", "44.29124", "1"] ∧
    (splitRecord "27681 ,,\"Sisters, OR\",,\"44.29124\",1" false).length = 6 ∧
    (splitRecord "27681 ,,\"Sisters, OR\",,\"44.29124\",1" false).get? 0 = some "27681" ∧
    (splitRecord "27681 ,,\"Sisters, OR\",,\"44.29124\",1" false).get? 2 = some "Sisters, OR" :=
  ⟨rfl, rfl, rfl, rfl⟩

/-! ### C1: field-count mismatch in read_row -/

/-- C1: the claim (and the source's own comment) says a row whose field
count differs from the header's leaves the output mapping empty with no
access past the end of the tokenized field list.  Evaluating the embedded
`read_row` body refutes both halves: with header `a,b` and data row `x`
the copy loop reaches the out-of-bounds access `fields_values[1]`
(modelled `none`), and with header `a` and data row `x,y` it returns
`OK` with the mapping populated (`a ↦ x`), not empty. -/
theorem claim_C1_mismatch_row_eval :
    readRowUpdate ["a", "b"] [] "x" = none ∧
    readRowUpdate ["a"] [] "x,y" = some [("a", "x")] ∧
    some [("a", "x")] ≠ some ([] : RowMap) :=
  ⟨rfl, rfl, by simp⟩

/-! ### C7: agency lookup by empty id -/

/-- C7: when the agencies table holds exactly one record, `get_agency("")`
returns it, regardless of the record's own `agency_id` value. -/
theorem claim_C7_sole_agency_empty_id (feed : Feed) (a : Agency)
    (h : feed.agencies = [a]) : getAgency feed "" = some a := by
  simp [getAgency, h]

/-- Witness for C7 at a one-agency store whose record carries the
non-empty id `DTA`. -/
theorem claim_C7_witness :
    getAgency { agencies := [{ agency_id := "DTA", agency_name := "Demo" }] } "" =
      some { agency_id := "DTA", agency_name := "Demo" } :=
  claim_C7_sole_agency_empty_id _ _ rfl

/-! ### C10: present-but-empty optional fields -/

/-- C10: for the helpers every mapper uses on optional enum and numeric
fields (`set_field`, its `size_t` instantiation, and `set_fractional`),
a row binding the key to the empty string behaves exactly like an absent
key: the field keeps its current (default) value, nothing is parsed and
no error is raised. -/
theorem claim_C10_empty_optional_is_default (row : RowMap) (key : String)
    (v : Int) (w : Nat) (q : ℚ)
    (h : lookupA row key = some "" ∨ lookupA row key = none) :
    setFieldInt v row key true = .ok v ∧
    setFieldSizeT w row key true = .ok w ∧
    setFractional q row key true = .ok (q, false) := by
  have hv : getValueOrDefault row key = "" := by
    cases h with
    | inl h => simp [getValueOrDefault, h]
    | inr h => simp [getValueOrDefault, h]
  refine ⟨?_, ?_, ?_⟩ <;> simp [setFieldInt, setFieldSizeT, setFractional, hv, pure, Except.pure]

/-- Witness for C10: a row carrying `pickup_type` bound to the empty
string (and lacking `timepoint` entirely) leaves the fields at their
defaults. -/
theorem claim_C10_witness :
    (setFieldInt 0 [("pickup_type", "")] "pickup_type" true = .ok 0 ∧
      setFieldSizeT 7 [("pickup_type", "")] "pickup_type" true = .ok 7 ∧
      setFractional (1 / 2) [("pickup_type", "")] "pickup_type" true = .ok (1 / 2, false)) ∧
    (setFieldInt 0 [("pickup_type", "")] "timepoint" true = .ok 0 ∧
      setFieldSizeT 7 [("pickup_type", "")] "timepoint" true = .ok 7 ∧
      setFractional (1 / 2) [("pickup_type", "")] "timepoint" true = .ok (1 / 2, false)) :=
  ⟨claim_C10_empty_optional_is_default _ _ _ _ _ (Or.inl rfl),
   claim_C10_empty_optional_is_default _ _ _ _ _ (Or.inr rfl)⟩

/-! ### C2: out-of-range coordinates in add_shape -/

theorem checkCoordinates_outOfRange {lat lon : ℚ}
    (h : lat < -90 ∨ 90 < lat ∨ lon < -180 ∨ 180 < lon) :
    ∃ msg, checkCoordinates lat lon = .error (.outOfRange msg) := by
  unfold checkCoordinates
  split_ifs with h1 h2
  · exact ⟨"Latitude", rfl⟩
  · exact ⟨"Longitude", rfl⟩
  · exfalso
    simp only [Bool.or_eq_true, decide_eq_true_eq, not_or] at h1 h2
    rcases h with h | h | h | h
    · exact h1.1 h
    · exact h1.2 h
    · exact h2.1 h
    · exact h2.2 h

/-- A `shapes.txt` row whose latitude text parses to 91, outside [-90, 90]. -/
def shapeRowBadLat : RowMap :=
  [("shape_id", "s1"), ("shape_pt_sequence", "1"), ("shape_pt_lon", "0.0"),
   ("shape_pt_lat", "91.0")]

theorem stod_eval_910 : stod "91.0" = .ok 91 := by
  have h : stod "91.0" =
      .ok (1 * (((91 : Nat) : ℚ) + ((0 : Nat) : ℚ) / 10 ^ (['0'] : List Char).length)) := rfl
  rw [h]
  norm_num

theorem stod_eval_00 : stod "0.0" = .ok 0 := by
  have h : stod "0.0" =
      .ok (1 * (((0 : Nat) : ℚ) + ((0 : Nat) : ℚ) / 10 ^ (['0'] : List Char).length)) := rfl
  rw [h]
  norm_num

theorem addShapeTry_badLat_eval :
    addShapeTry shapeRowBadLat = .error (.outOfRange "Latitude") := by
  have e1 : mapAt shapeRowBadLat "shape_id" = .ok "s1" := rfl
  have e2 : mapAt shapeRowBadLat "shape_pt_sequence" = .ok "1" := rfl
  have e3 : mapAt shapeRowBadLat "shape_pt_lon" = .ok "0.0" := rfl
  have e4 : mapAt shapeRowBadLat "shape_pt_lat" = .ok "91.0" := rfl
  have e5 : stoi "1" = .ok 1 := rfl
  have e8 : checkCoordinates 91 0 = .error (.outOfRange "Latitude") := by
    unfold checkCoordinates
    norm_num
  simp [addShapeTry, e1, e2, e3, e4, e5, stod_eval_00, stod_eval_910, e8, bind, Except.bind]

/-- C2 counterexample: on a row with latitude 91 the embedded `add_shape`
returns `ERROR_REQUIRED_FIELD_ABSENT` — the `std::out_of_range` thrown by
`check_coordinates` lands in the same catch clause as a missing key — not
the `ERROR_INVALID_FIELD_FORMAT` the claim asserts, and it appends no
shape point. -/
theorem claim_C2_counterexample :
    (addShape {} shapeRowBadLat).1.code = ResultCode.ERROR_REQUIRED_FIELD_ABSENT ∧
    (addShape {} shapeRowBadLat).1.code ≠ ResultCode.ERROR_INVALID_FIELD_FORMAT ∧
    (addShape {} shapeRowBadLat).2 = ({} : Feed) := by
  rw [show addShape {} shapeRowBadLat =
      (resultOfException (.outOfRange "Latitude"), {}) from by
    simp [addShape, addShapeTry_badLat_eval]]
  refine ⟨rfl, by simp [resultOfException], rfl⟩

/-- C2 amended: for every row whose required shape fields are present and
parse, a latitude outside [-90, 90] or a longitude outside [-180, 180]
makes the coordinate check raise its range fault, which `add_shape`
translates into `ERROR_REQUIRED_FIELD_ABSENT` (the same handler as a
missing required key, not `InvalidFormat`), appending no shape point. -/
theorem claim_C2_coordinate_range_fault (feed : Feed) (row : RowMap)
    (sid seqs lons lats : String) (n : Int) (lon lat : ℚ)
    (h1 : lookupA row "shape_id" = some sid)
    (h2 : lookupA row "shape_pt_sequence" = some seqs)
    (h3 : stoi seqs = .ok n)
    (h4 : lookupA row "shape_pt_lon" = some lons)
    (h5 : stod lons = .ok lon)
    (h6 : lookupA row "shape_pt_lat" = some lats)
    (h7 : stod lats = .ok lat)
    (h8 : lat < -90 ∨ 90 < lat ∨ lon < -180 ∨ 180 < lon) :
    (addShape feed row).1.code = ResultCode.ERROR_REQUIRED_FIELD_ABSENT ∧
    (addShape feed row).2 = feed := by
  obtain ⟨msg, hcc⟩ := checkCoordinates_outOfRange h8
  have htry : addShapeTry row = .error (.outOfRange msg) := by
    simp [addShapeTry, mapAt, h1, h2, h3, h4, h5, h6, h7, hcc, bind, Except.bind]
  simp [addShape, htry, resultOfException]

/-- Witness for C2 (amended) at the latitude-91 row against the empty
store. -/
theorem claim_C2_witness :
    (addShape { routes := [] } shapeRowBadLat).1.code =
      ResultCode.ERROR_REQUIRED_FIELD_ABSENT ∧
    (addShape { routes := [] } shapeRowBadLat).2 = { routes := [] } :=
  claim_C2_coordinate_range_fault { routes := [] } shapeRowBadLat "s1" "1" "0.0" "91.0"
    1 0 91 rfl rfl rfl rfl stod_eval_00 rfl stod_eval_910
    (Or.inr (Or.inl (by norm_num)))

/-! ### C3: stop times for a trip, sorted -/

theorem stopTimeComp_false_iff {a b : StopTime} :
    stopTimeComp b a = false ↔ a.stop_sequence ≤ b.stop_sequence := by
  simp [stopTimeComp]

theorem insertBySeq_perm (x : StopTime) :
    ∀ l : List StopTime, (insertBySeq x l).Perm (x :: l)
  | [] => List.Perm.refl _
  | y :: ys => by
    rw [insertBySeq]
    split
    · exact List.Perm.refl _
    · exact ((insertBySeq_perm x ys).cons y).trans (List.Perm.swap x y ys)

theorem sortBySeq_perm : ∀ l : List StopTime, (sortBySeq l).Perm l
  | [] => List.Perm.refl _
  | x :: xs => (insertBySeq_perm x (sortBySeq xs)).trans ((sortBySeq_perm xs).cons x)

theorem insertBySeq_sorted (x : StopTime) :
    ∀ l : List StopTime, l.Pairwise (fun a b => stopTimeComp b a = false) →
      (insertBySeq x l).Pairwise (fun a b => stopTimeComp b a = false) := by
  intro l
  induction l with
  | nil =>
    intro _
    simp [insertBySeq]
  | cons y ys ih =>
    intro h
    have h1 := (List.pairwise_cons.mp h).1
    have h2 := (List.pairwise_cons.mp h).2
    rw [insertBySeq]
    by_cases hle : x.stop_sequence ≤ y.stop_sequence
    · rw [if_pos hle]
      refine List.Pairwise.cons ?_ h
      intro b hb
      rcases List.mem_cons.mp hb with rfl | hb'
      · exact stopTimeComp_false_iff.mpr hle
      · have hyb := stopTimeComp_false_iff.mp (h1 b hb')
        exact stopTimeComp_false_iff.mpr (by omega)
    · rw [if_neg hle]
      refine List.Pairwise.cons ?_ (ih h2)
      intro b hb
      have hmem : b = x ∨ b ∈ ys := by
        have := (insertBySeq_perm x ys).mem_iff.mp hb
        simpa using this
      rcases hmem with rfl | hb'
      · exact stopTimeComp_false_iff.mpr (by omega)
      · exact h1 b hb'

theorem sortBySeq_sorted :
    ∀ l : List StopTime, (sortBySeq l).Pairwise (fun a b => stopTimeComp b a = false)
  | [] => List.Pairwise.nil
  | x :: xs => insertBySeq_sorted x (sortBySeq xs) (sortBySeq_sorted xs)

/-- C3 amended: the `sort=true` query admits some output (the `std::sort`
contract is satisfiable); every admissible output contains exactly the
stored stop times whose `trip_id` matches and is non-decreasing in
`stop_sequence`; and the `sort=false` collection is a sublist of the
stored table, so the stored row order is preserved, never mutated.  The
order among records with equal `stop_sequence` — and hence equality of
the sequences two separate calls return — is not guaranteed, because
`std::sort` is not stable (see the counterexample). -/
theorem claim_C3_sorted_query (feed : Feed) (tripId : String) :
    (∃ out, SortedTripResult feed tripId out) ∧
    (∀ out, SortedTripResult feed tripId out →
      (∀ st, st ∈ out ↔ st ∈ feed.stop_times ∧ st.trip_id = tripId) ∧
      out.Pairwise (fun a b => a.stop_sequence ≤ b.stop_sequence)) ∧
    (getStopTimesForTripNoSort feed tripId).Sublist feed.stop_times := by
  refine ⟨⟨sortBySeq (getStopTimesForTripNoSort feed tripId),
      sortBySeq_perm _, sortBySeq_sorted _⟩, ?_, List.filter_sublist _⟩
  intro out hout
  constructor
  · intro st
    rw [hout.1.mem_iff]
    simp [getStopTimesForTripNoSort, List.mem_filter]
  · exact hout.2.imp fun h => stopTimeComp_false_iff.mp h

/-- Two stored stop times of trip `t` sharing `stop_sequence` 5. -/
def stA : StopTime := { trip_id := "t", stop_id := "A", stop_sequence := 5 }

/-- See `stA`. -/
def stB : StopTime := { trip_id := "t", stop_id := "B", stop_sequence := 5 }

/-- A store holding `stA` before `stB`. -/
def feedC3 : Feed := { stop_times := [stA, stB] }

/-- C3 counterexample: with two equal-`stop_sequence` records stored as
`[stA, stB]`, the output `[stB, stA]` satisfies everything `std::sort`
guarantees, yet it is not the stable order `[stA, stB]` (which is also
admissible) — so the stored relative order of ties need not be kept and
two admissible results differ, refuting the claimed stability and
call-to-call identity. -/
theorem claim_C3_counterexample :
    SortedTripResult feedC3 "t" [stB, stA] ∧
    SortedTripResult feedC3 "t" [stA, stB] ∧
    ([stB, stA] : List StopTime) ≠ [stA, stB] := by
  have hfil : getStopTimesForTripNoSort feedC3 "t" = [stA, stB] := rfl
  refine ⟨⟨?_, ?_⟩, ⟨?_, ?_⟩, ?_⟩
  · rw [hfil]
    exact List.Perm.swap stA stB []
  · decide
  · rw [hfil]
  · decide
  · decide

/-- Witness for C3 (amended) at a concrete store and trip id. -/
theorem claim_C3_witness :
    (∃ out, SortedTripResult feedC3 "x" out) ∧
    (getStopTimesForTripNoSort feedC3 "x").Sublist feedC3.stop_times :=
  ⟨(claim_C3_sorted_query feedC3 "x").1, (claim_C3_sorted_query feedC3 "x").2.2⟩

/-! ### C8: reducing hours modulo 24 -/

theorem natDigitsAux_small (f n : Nat) (h : n < 10) :
    natDigitsAux (f + 1) n = [Char.ofNat (48 + n)] := by
  simp [natDigitsAux, h]

theorem natToString_length_le_two {n : Nat} (h : n < 100) : (natToString n).length ≤ 2 := by
  unfold natToString
  by_cases h10 : n < 10
  · have : natDigitsAux (n + 1) n = [Char.ofNat (48 + n)] := natDigitsAux_small n n h10
    simp [this, String.length]
  · have hd : (n / 10) < 10 := by omega
    obtain ⟨m, rfl⟩ : ∃ m, n = m + 1 := ⟨n - 1, by omega⟩
    have hstep : natDigitsAux (m + 1 + 1) (m + 1) =
        natDigitsAux (m + 1) ((m + 1) / 10) ++ [Char.ofNat (48 + (m + 1) % 10)] := by
      simp [natDigitsAux, h10]
    have hsmall : natDigitsAux (m + 1) ((m + 1) / 10) = [Char.ofNat (48 + (m + 1) / 10)] :=
      natDigitsAux_small m _ hd
    simp [hstep, hsmall, String.length]

/-- Zero-padding to width two of a decimal rendering (the value
`append_leading_zero` produces when it does not fault). -/
def pad2 (n : Nat) : String :=
  if (natToString n).length = 2 then natToString n else "0" ++ natToString n

theorem appendLeadingZero_nocheck (n : Nat) :
    appendLeadingZero (natToString n) false = .ok (pad2 n) := by
  simp [appendLeadingZero, pad2]

theorem appendLeadingZero_small {n : Nat} (h : n < 100) :
    appendLeadingZero (natToString n) true = .ok (pad2 n) := by
  have hle := natToString_length_le_two h
  unfold appendLeadingZero pad2
  rw [if_neg]
  simp
  omega

/-- C8: on a `Time` value (whose constructors guarantee minutes and
seconds at most 60), `limit_hours_to_24max` with hours ≥ 24 reduces the
hours modulo 24 in place, recomputes total seconds and the canonical
zero-padded text, and returns true; with hours < 24 it returns false and
leaves the value completely unchanged. -/
theorem claim_C8_limit_hours (t : Time) (hmm2 : t.mm ≤ 60) (hss : t.ss ≤ 60) :
    (24 ≤ t.hh → limitHoursTo24max t =
      .ok (true, { t with
        hh := t.hh % 24
        total_seconds := (t.hh % 24) * 3600 + t.mm * 60 + t.ss
        raw_time := pad2 (t.hh % 24) ++ ":" ++ pad2 t.mm ++ ":" ++ pad2 t.ss })) ∧
    (t.hh < 24 → limitHoursTo24max t = .ok (false, t)) := by
  constructor
  · intro h24
    have e1 := appendLeadingZero_nocheck (t.hh % 24)
    have e2 := appendLeadingZero_small (show t.mm < 100 by omega)
    have e3 := appendLeadingZero_small (show t.ss < 100 by omega)
    have e4 : setRawTime (t.hh % 24) t.mm t.ss =
        .ok (pad2 (t.hh % 24) ++ ":" ++ pad2 t.mm ++ ":" ++ pad2 t.ss) := by
      simp [setRawTime, e1, e2, e3, bind, Except.bind, pure, Except.pure]
    simp [limitHoursTo24max, Nat.not_lt.mpr h24, e4, bind, Except.bind, pure, Except.pure]
  · intro h24
    simp [limitHoursTo24max, h24, pure, Except.pure]

/-- The parse of `24:05:00` (as the source's test exercises). -/
def t24 : Time :=
  { time_is_provided := true, raw_time := "24:05:00", total_seconds := 86700,
    hh := 24, mm := 5, ss := 0 }

/-- A sub-24-hour time value. -/
def t3 : Time :=
  { time_is_provided := true, raw_time := "3:05:00", total_seconds := 11100,
    hh := 3, mm := 5, ss := 0 }

/-- Witness for C8: `Time("24:05:00")` reduces to canonical text
`00:05:00` returning true, and a 3-hour value is returned unchanged with
false. -/
theorem claim_C8_witness :
    timeFromString "24:05:00" = .ok t24 ∧
    limitHoursTo24max t24 = .ok (true,
      { time_is_provided := true, raw_time := "00:05:00", total_seconds := 300,
        hh := 0, mm := 5, ss := 0 }) ∧
    limitHoursTo24max t3 = .ok (false, t3) := by
  refine ⟨rfl, ?_, ?_⟩
  · have h := (claim_C8_limit_hours t24 (by decide) (by decide)).1 (by decide)
    rw [h]
    rfl
  · exact (claim_C8_limit_hours t3 (by decide) (by decide)).2 (by decide)

/-! ### C4: time parsing -/

theorem stoi_digits_small (l : List Char) (hne : l ≠ [])
    (hdig : ∀ c ∈ l, cppIsDigit c = true) (hlen : l.length ≤ 4) :
    stoi ⟨l⟩ = .ok (digitsVal l) := by
  refine stoi_digits l hne hdig ?_
  have h := digitsVal_lt l hdig
  have : (10 : Nat) ^ l.length ≤ 10 ^ 4 := Nat.pow_le_pow_right (by omega) hlen
  omega

theorem castUInt16_digits (l : List Char) (hdig : ∀ c ∈ l, cppIsDigit c = true)
    (hlen : l.length ≤ 4) : castUInt16 ((digitsVal l : Nat) : Int) = digitsVal l := by
  refine castUInt16_coe _ ?_
  have h := digitsVal_lt l hdig
  have : (10 : Nat) ^ l.length ≤ 10 ^ 4 := Nat.pow_le_pow_right (by omega) hlen
  omega

/-- C4: every raw time of the form `H:MM:SS` or `HH:MM:SS` (decimal digit
components) whose minute and second values are at most 60 parses
successfully, is marked provided, keeps the original text, and has total
seconds `hours*3600 + minutes*60 + seconds`. -/
theorem claim_C4_time_parse (a b m1 m2 s1 s2 : Char)
    (ha : cppIsDigit a = true) (hb : cppIsDigit b = true)
    (hm1 : cppIsDigit m1 = true) (hm2 : cppIsDigit m2 = true)
    (hs1 : cppIsDigit s1 = true) (hs2 : cppIsDigit s2 = true)
    (hmm : digitsVal [m1, m2] ≤ 60) (hss : digitsVal [s1, s2] ≤ 60) :
    timeFromString ⟨[a, ':', m1, m2, ':', s1, s2]⟩ =
      .ok { time_is_provided := true
            raw_time := ⟨[a, ':', m1, m2, ':', s1, s2]⟩
            total_seconds :=
              digitsVal [a] * 3600 + digitsVal [m1, m2] * 60 + digitsVal [s1, s2]
            hh := digitsVal [a]
            mm := digitsVal [m1, m2]
            ss := digitsVal [s1, s2] } ∧
    timeFromString ⟨[a, b, ':', m1, m2, ':', s1, s2]⟩ =
      .ok { time_is_provided := true
            raw_time := ⟨[a, b, ':', m1, m2, ':', s1, s2]⟩
            total_seconds :=
              digitsVal [a, b] * 3600 + digitsVal [m1, m2] * 60 + digitsVal [s1, s2]
            hh := digitsVal [a, b]
            mm := digitsVal [m1, m2]
            ss := digitsVal [s1, s2] } := by
  have p2 : stoi ⟨[m1, m2]⟩ = .ok (digitsVal [m1, m2]) := by
    refine stoi_digits_small _ (by simp) ?_ (by simp)
    intro c hc
    rcases (by simpa using hc : c = m1 ∨ c = m2) with rfl | rfl <;> assumption
  have p3 : stoi ⟨[s1, s2]⟩ = .ok (digitsVal [s1, s2]) := by
    refine stoi_digits_small _ (by simp) ?_ (by simp)
    intro c hc
    rcases (by simpa using hc : c = s1 ∨ c = s2) with rfl | rfl <;> assumption
  have c2 : castUInt16 ((digitsVal [m1, m2] : Nat) : Int) = digitsVal [m1, m2] := by
    refine castUInt16_digits _ ?_ (by simp)
    intro c hc
    rcases (by simpa using hc : c = m1 ∨ c = m2) with rfl | rfl <;> assumption
  have c3 : castUInt16 ((digitsVal [s1, s2] : Nat) : Int) = digitsVal [s1, s2] := by
    refine castUInt16_digits _ ?_ (by simp)
    intro c hc
    rcases (by simpa using hc : c = s1 ∨ c = s2) with rfl | rfl <;> assumption
  have hbound : ¬(digitsVal [m1, m2] > 60 ∨ digitsVal [s1, s2] > 60) := by omega
  constructor
  · have hne : (⟨[a, ':', m1, m2, ':', s1, s2]⟩ : String) ≠ "" := by
      intro hcontra
      have := congrArg String.data hcontra
      simp at this
    have hlen : (⟨[a, ':', m1, m2, ':', s1, s2]⟩ : String).length = 7 := rfl
    have hcolon : charAt ⟨[a, ':', m1, m2, ':', s1, s2]⟩ 4 = ':' := rfl
    have e1 : substrCpp ⟨[a, ':', m1, m2, ':', s1, s2]⟩ 0 1 = ⟨[a]⟩ := rfl
    have e2 : substrCpp ⟨[a, ':', m1, m2, ':', s1, s2]⟩ 2 2 = ⟨[m1, m2]⟩ := rfl
    have e3 : substrFrom ⟨[a, ':', m1, m2, ':', s1, s2]⟩ 5 = ⟨[s1, s2]⟩ := rfl
    have p1 : stoi ⟨[a]⟩ = .ok (digitsVal [a]) := by
      refine stoi_digits_small _ (by simp) ?_ (by simp)
      intro c hc
      simp at hc
      subst hc
      exact ha
    have c1 : castUInt16 ((digitsVal [a] : Nat) : Int) = digitsVal [a] := by
      refine castUInt16_digits _ ?_ (by simp)
      intro c hc
      simp at hc
      subst hc
      exact ha
    simp [timeFromString, hne, hlen, hcolon, e1, e2, e3, p1, p2, p3, c1, c2, c3,
      bind, Except.bind, pure, Except.pure, hbound]
  · have hne : (⟨[a, b, ':', m1, m2, ':', s1, s2]⟩ : String) ≠ "" := by
      intro hcontra
      have := congrArg String.data hcontra
      simp at this
    have hlen : (⟨[a, b, ':', m1, m2, ':', s1, s2]⟩ : String).length = 8 := rfl
    have hcolon : charAt ⟨[a, b, ':', m1, m2, ':', s1, s2]⟩ 5 = ':' := rfl
    have e1 : substrCpp ⟨[a, b, ':', m1, m2, ':', s1, s2]⟩ 0 2 = ⟨[a, b]⟩ := rfl
    have e2 : substrCpp ⟨[a, b, ':', m1, m2, ':', s1, s2]⟩ 3 2 = ⟨[m1, m2]⟩ := rfl
    have e3 : substrFrom ⟨[a, b, ':', m1, m2, ':', s1, s2]⟩ 6 = ⟨[s1, s2]⟩ := rfl
    have p1 : stoi ⟨[a, b]⟩ = .ok (digitsVal [a, b]) := by
      refine stoi_digits_small _ (by simp) ?_ (by simp)
      intro c hc
      rcases (by simpa using hc : c = a ∨ c = b) with rfl | rfl <;> assumption
    have c1 : castUInt16 ((digitsVal [a, b] : Nat) : Int) = digitsVal [a, b] := by
      refine castUInt16_digits _ ?_ (by simp)
      intro c hc
      rcases (by simpa using hc : c = a ∨ c = b) with rfl | rfl <;> assumption
    simp [timeFromString, hne, hlen, hcolon, e1, e2, e3, p1, p2, p3, c1, c2, c3,
      bind, Except.bind, pure, Except.pure, hbound]

/-- Witness for C4 at `1:34:56` and `12:34:56`. -/
theorem claim_C4_witness :
    timeFromString "1:34:56" =
      .ok { time_is_provided := true, raw_time := "1:34:56", total_seconds := 5696,
            hh := 1, mm := 34, ss := 56 } ∧
    timeFromString "12:34:56" =
      .ok { time_is_provided := true, raw_time := "12:34:56", total_seconds := 45296,
            hh := 12, mm := 34, ss := 56 } := by
  have h := claim_C4_time_parse '1' '2' '3' '4' '5' '6'
    (by decide) (by decide) (by decide) (by decide) (by decide) (by decide)
    (by decide) (by decide)
  exact ⟨h.1.trans rfl, h.2.trans rfl⟩

/-! ### C5: date validity -/

/-- The leap-year rule as the claim words it. -/
def specLeapYear (y : Nat) : Prop := y % 4 = 0 ∧ ¬(y % 100 = 0 ∧ y % 400 ≠ 0)

/-- Day-of-month validity as the claim words it. -/
def specDateValid (y m d : Nat) : Prop :=
  1000 ≤ y ∧ y ≤ 9999 ∧ 1 ≤ m ∧ m ≤ 12 ∧ 1 ≤ d ∧ d ≤ 31 ∧
  (m = 2 → (d ≤ 28 ∨ (specLeapYear y ∧ d = 29))) ∧
  ((m = 4 ∨ m = 6 ∨ m = 9 ∨ m = 11) → d ≤ 30)

instance (y : Nat) : Decidable (specLeapYear y) := by
  unfold specLeapYear
  infer_instance

instance (y m d : Nat) : Decidable (specDateValid y m d) := by
  unfold specDateValid
  infer_instance

theorem checkValidDate_isOk_iff (y m d : Nat) :
    exceptIsOk (checkValidDate y m d) = true ↔ specDateValid y m d := by
  unfold checkValidDate
  split_ifs <;>
    simp only [bind, Except.bind, pure, Except.pure, exceptIsOk, specDateValid,
      specLeapYear] <;>
    simp only [Bool.or_eq_true, Bool.and_eq_true, Bool.not_eq_true, Bool.and_eq_false_iff,
      Bool.or_eq_false_iff, decide_eq_true_eq, decide_eq_false_iff_not, ne_eq, not_or,
      Bool.false_eq_true, false_iff, true_iff, Bool.true_eq, not_and, not_not, not_lt,
      not_le] at * <;>
    omega

theorem checkValidDate_error_invalid (y m d : Nat) (e : CppException)
    (h : checkValidDate y m d = .error e) : e.isInvalidFieldFormat = true := by
  unfold checkValidDate at h
  split_ifs at h <;>
    (try simp only [bind, Except.bind, pure, Except.pure] at h) <;>
    first
      | exact Except.noConfusion h
      | (injection h with h2; subst h2; rfl)

theorem exceptIsOk_bind_const {α β : Type} (x : Except CppException α) (r : β) :
    exceptIsOk (Except.bind x (fun _ => Except.ok r)) = exceptIsOk x := by
  cases x <;> rfl

theorem dateFromString_eight (a1 a2 a3 a4 a5 a6 a7 a8 : Char)
    (hd : ∀ c ∈ [a1, a2, a3, a4, a5, a6, a7, a8], cppIsDigit c = true) :
    dateFromString ⟨[a1, a2, a3, a4, a5, a6, a7, a8]⟩ =
      Except.bind
        (checkValidDate (digitsVal [a1, a2, a3, a4]) (digitsVal [a5, a6]) (digitsVal [a7, a8]))
        (fun _ => .ok { raw_date := ⟨[a1, a2, a3, a4, a5, a6, a7, a8]⟩,
                        yyyy := digitsVal [a1, a2, a3, a4], mm := digitsVal [a5, a6],
                        dd := digitsVal [a7, a8], date_is_provided := true }) := by
  have hne : (⟨[a1, a2, a3, a4, a5, a6, a7, a8]⟩ : String) ≠ "" := by
    intro hcontra
    have := congrArg String.data hcontra
    simp at this
  have hlen8 : (⟨[a1, a2, a3, a4, a5, a6, a7, a8]⟩ : String).length = 8 := rfl
  have e1 : substrCpp ⟨[a1, a2, a3, a4, a5, a6, a7, a8]⟩ 0 4 = ⟨[a1, a2, a3, a4]⟩ := rfl
  have e2 : substrCpp ⟨[a1, a2, a3, a4, a5, a6, a7, a8]⟩ 4 2 = ⟨[a5, a6]⟩ := rfl
  have e3 : substrCpp ⟨[a1, a2, a3, a4, a5, a6, a7, a8]⟩ 6 2 = ⟨[a7, a8]⟩ := rfl
  have m1 : ∀ c ∈ [a1, a2, a3, a4], cppIsDigit c = true := by
    intro c hc
    rcases (by simpa using hc : c = a1 ∨ c = a2 ∨ c = a3 ∨ c = a4) with rfl | rfl | rfl | rfl <;>
      exact hd _ (by simp)
  have m2 : ∀ c ∈ [a5, a6], cppIsDigit c = true := by
    intro c hc
    rcases (by simpa using hc : c = a5 ∨ c = a6) with rfl | rfl <;> exact hd _ (by simp)
  have m3 : ∀ c ∈ [a7, a8], cppIsDigit c = true := by
    intro c hc
    rcases (by simpa using hc : c = a7 ∨ c = a8) with rfl | rfl <;> exact hd _ (by simp)
  have p1 : stoi ⟨[a1, a2, a3, a4]⟩ = .ok (digitsVal [a1, a2, a3, a4]) :=
    stoi_digits_small _ (by simp) m1 (by simp)
  have p2 : stoi ⟨[a5, a6]⟩ = .ok (digitsVal [a5, a6]) :=
    stoi_digits_small _ (by simp) m2 (by simp)
  have p3 : stoi ⟨[a7, a8]⟩ = .ok (digitsVal [a7, a8]) :=
    stoi_digits_small _ (by simp) m3 (by simp)
  have c1 := castUInt16_digits _ m1 (by simp)
  have c2 := castUInt16_digits _ m2 (by simp)
  have c3 := castUInt16_digits _ m3 (by simp)
  simp [dateFromString, hne, hlen8, e1, e2, e3, p1, p2, p3, c1, c2, c3,
    bind, Except.bind, pure, Except.pure]

theorem data_eight (l : List Char) (h : l.length = 8) :
    ∃ a1 a2 a3 a4 a5 a6 a7 a8, l = [a1, a2, a3, a4, a5, a6, a7, a8] := by
  rcases l with _ | ⟨a1, l⟩
  · simp at h
  rcases l with _ | ⟨a2, l⟩
  · simp at h
  rcases l with _ | ⟨a3, l⟩
  · simp at h
  rcases l with _ | ⟨a4, l⟩
  · simp at h
  rcases l with _ | ⟨a5, l⟩
  · simp at h
  rcases l with _ | ⟨a6, l⟩
  · simp at h
  rcases l with _ | ⟨a7, l⟩
  · simp at h
  rcases l with _ | ⟨a8, l⟩
  · simp at h
  rcases l with _ | ⟨a9, l⟩
  · exact ⟨a1, a2, a3, a4, a5, a6, a7, a8, rfl⟩
  · simp only [List.length_cons] at h
    omega

/-- C5: for every 8-character decimal-digit raw string, `Date(raw)`
succeeds exactly when the year/month/day values satisfy the Gregorian
validity rule the claim states (year in [1000, 9999], month in [1, 12],
February 29 only in leap years, at most 30 days in April, June,
September, November, at most 31 otherwise), and every failure is the
`InvalidFieldFormat` fault (`InvalidFormat`). -/
theorem claim_C5_date_validity (s : String) (hlen : s.length = 8)
    (hdig : ∀ c ∈ s.data, cppIsDigit c = true) :
    (exceptIsOk (dateFromString s) = true ↔
      specDateValid (digitsVal (s.data.take 4)) (digitsVal ((s.data.drop 4).take 2))
        (digitsVal ((s.data.drop 6).take 2))) ∧
    (∀ e, dateFromString s = .error e → e.isInvalidFieldFormat = true) := by
  obtain ⟨data⟩ := s
  obtain ⟨a1, a2, a3, a4, a5, a6, a7, a8, rfl⟩ := data_eight data hlen
  have hd : ∀ c ∈ [a1, a2, a3, a4, a5, a6, a7, a8], cppIsDigit c = true := hdig
  have hkey := dateFromString_eight a1 a2 a3 a4 a5 a6 a7 a8 hd
  have ht4 : ((⟨[a1, a2, a3, a4, a5, a6, a7, a8]⟩ : String).data.take 4) =
      [a1, a2, a3, a4] := rfl
  have ht5 : (((⟨[a1, a2, a3, a4, a5, a6, a7, a8]⟩ : String).data.drop 4).take 2) =
      [a5, a6] := rfl
  have ht6 : (((⟨[a1, a2, a3, a4, a5, a6, a7, a8]⟩ : String).data.drop 6).take 2) =
      [a7, a8] := rfl
  rw [hkey, ht4, ht5, ht6]
  constructor
  · rw [exceptIsOk_bind_const]
    exact checkValidDate_isOk_iff _ _ _
  · intro e he
    cases hcv : checkValidDate (digitsVal [a1, a2, a3, a4]) (digitsVal [a5, a6])
        (digitsVal [a7, a8]) with
    | ok u =>
      rw [hcv] at he
      exact Except.noConfusion he
    | error e2 =>
      rw [hcv] at he
      injection he with he2
      subst he2
      exact checkValidDate_error_invalid _ _ _ _ hcv

theorem claim_C5_witness :
    exceptIsOk (dateFromString "20200229") = true ∧
    exceptIsOk (dateFromString "20210229") = false ∧
    exceptIsOk (dateFromString "19980431") = false := by
  refine ⟨?_, ?_, ?_⟩
  · exact (claim_C5_date_validity "20200229" rfl (by decide)).1.mpr (by decide)
  · have h := (claim_C5_date_validity "20210229" rfl (by decide)).1
    cases hb : exceptIsOk (dateFromString "20210229")
    · rfl
    · exact absurd (h.mp hb) (by decide)
  · have h := (claim_C5_date_validity "19980431" rfl (by decide)).1
    cases hb : exceptIsOk (dateFromString "19980431")
    · rfl
    · exact absurd (h.mp hb) (by decide)

/-! ### C6: route name cross-field rule and table-read abort -/

theorem parseRows_append_abort (addEntity : Feed → RowMap → Result × Feed)
    (fname : String) (fields : List String) :
    ∀ (pre : List String) (rec : RowMap) (feed : Feed) (rec1 rec2 : RowMap)
      (feed1 feed2 : Feed) (bad : String) (post : List String) (res : Result),
      runRowsOk addEntity fields pre rec feed = some (rec1, feed1) →
      readRowUpdate fields rec1 bad = some rec2 →
      rec2 ≠ [] →
      addEntity feed1 rec2 = (res, feed2) →
      res.code ≠ .OK →
      parseRows addEntity fname fields (pre ++ bad :: post) rec feed = some (res, feed2) := by
  intro pre
  induction pre with
  | nil =>
    intro rec feed rec1 rec2 feed1 feed2 bad post res hrun hread hne hadd hcode
    simp only [runRowsOk, Option.some.injEq, Prod.mk.injEq] at hrun
    obtain ⟨hh1, hh2⟩ := hrun
    subst hh1
    subst hh2
    simp [parseRows, hread, hne, hadd, hcode]
  | cons row rest ih =>
    intro rec feed rec1 rec2 feed1 feed2 bad post res hrun hread hne hadd hcode
    simp only [runRowsOk] at hrun
    cases hr : readRowUpdate fields rec row with
    | none =>
      rw [hr] at hrun
      exact Option.noConfusion hrun
    | some recx =>
      simp only [hr] at hrun
      simp only [List.cons_append, parseRows, hr]
      by_cases hre : recx = []
      · rw [if_pos hre] at hrun ⊢
        exact ih _ _ _ _ _ _ _ _ _ hrun hread hne hadd hcode
      · rw [if_neg hre] at hrun ⊢
        by_cases hok : (addEntity feed recx).1.code = .OK
        · rw [if_pos hok] at hrun ⊢
          exact ih _ _ _ _ _ _ _ _ _ hrun hread hne hadd hcode
        · rw [if_neg hok] at hrun
          exact Option.noConfusion hrun

/-- C6: a routes row whose other required fields are well-formed but whose
`route_short_name` and `route_long_name` are both empty or absent makes
`add_route` fail with `ERROR_REQUIRED_FIELD_ABSENT` and append nothing,
and the whole-table read over any line sequence containing such a row
aborts at that row with that failure, keeping exactly the routes appended
by the earlier, successfully mapped rows (no rollback) and never touching
the lines after it. -/
theorem claim_C6_route_names_required (row : RowMap) (rid rts : String) (rtv : Int)
    (sov : Nat) (feed : Feed)
    (h1 : lookupA row "route_id" = some rid)
    (h2 : lookupA row "route_type" = some rts)
    (h3 : stoi rts = .ok rtv)
    (h4 : setFieldSizeT 0 row "route_sort_order" = .ok sov)
    (h5 : getValueOrDefault row "route_short_name" = "")
    (h6 : getValueOrDefault row "route_long_name" = "") :
    addRoute feed row =
      ({ code := .ERROR_REQUIRED_FIELD_ABSENT, message := routeNameMissingMsg }, feed) ∧
    ∀ (fname : String) (fields : List String) (pre post : List String)
      (rec rec1 : RowMap) (feed0 : Feed) (bad : String),
      runRowsOk addRoute fields pre rec feed0 = some (rec1, feed) →
      readRowUpdate fields rec1 bad = some row →
      parseRows addRoute fname fields (pre ++ bad :: post) rec feed0 =
        some ({ code := .ERROR_REQUIRED_FIELD_ABSENT, message := routeNameMissingMsg },
              feed) := by
  have hsf : setFieldInt 0 row "route_type" false = .ok rtv := by
    simp [setFieldInt, getValueOrDefault, h2, h3]
  have htry : addRouteTry row = .ok (rid, rtv, sov) := by
    simp [addRouteTry, mapAt, h1, hsf, h4, bind, Except.bind, pure, Except.pure]
  have hmain : addRoute feed row =
      ({ code := .ERROR_REQUIRED_FIELD_ABSENT, message := routeNameMissingMsg }, feed) := by
    simp [addRoute, htry, h5, h6]
  have hne : row ≠ [] := by
    intro hcontra
    subst hcontra
    simp [lookupA] at h1
  refine ⟨hmain, fun fname fields pre post rec rec1 feed0 bad hrun hread => ?_⟩
  exact parseRows_append_abort addRoute fname fields pre rec feed0 rec1 row feed feed bad
    post _ hrun hread hne hmain (by simp)

/-- The header fields of the witness routes file. -/
def routesFields : List String := ["route_id", "route_type", "route_short_name"]

/-- The route the witness's first, well-formed row appends. -/
def routeR1 : Route := { route_id := "r1", route_type := 3, route_short_name := "Ten" }

/-- Witness for C6: reading rows `r1,3,Ten`, `r2,3,` (both names empty),
`r3,3,X` aborts at the second row with `ERROR_REQUIRED_FIELD_ABSENT`,
keeping exactly the route of the first row. -/
theorem claim_C6_witness :
    parseRows addRoute "routes.txt" routesFields ["r1,3,Ten", "r2,3,", "r3,3,X"] [] {} =
      some ({ code := .ERROR_REQUIRED_FIELD_ABSENT, message := routeNameMissingMsg },
            { routes := [routeR1] }) := by
  have hrun : runRowsOk addRoute routesFields ["r1,3,Ten"] [] {} =
      some ([("route_id", "r1"), ("route_type", "3"), ("route_short_name", "Ten")],
            { routes := [routeR1] }) := rfl
  have hread : readRowUpdate routesFields
      [("route_id", "r1"), ("route_type", "3"), ("route_short_name", "Ten")] "r2,3," =
      some [("route_id", "r2"), ("route_type", "3"), ("route_short_name", "")] := rfl
  exact (claim_C6_route_names_required
      [("route_id", "r2"), ("route_type", "3"), ("route_short_name", "")]
      "r2" "3" 3 0 { routes := [routeR1] } rfl rfl rfl rfl rfl rfl).2
    "routes.txt" routesFields ["r1,3,Ten"] ["r3,3,X"] [] _ {} "r2,3," hrun hread

end JustGtfs
